import Mathlib

/-!
Shallow embedding of the Taiwan strong-stock screener (`src/app.py`).

The source is a single script.  Prices and volumes are modelled as
rationals (the Python code works with floats; all formulas are exact
field arithmetic, so `ℚ` is the faithful exact model).  A pandas
DataFrame row carries a close price and a volume; a fetched series is a
list of rows ordered ascending by date (oldest first), so `iloc[-1]` is
the last list element.  A pandas `NaN` (undefined indicator value) is
modelled as `none : Option ℚ`.
-/

namespace Screener

/-- One row of the OHLCV DataFrame; only the columns the screener reads. -/
structure Row where
  close : ℚ
  volume : ℚ
deriving DecidableEq, Repr

/-- A fetched series: DataFrame rows, oldest first. -/
abbrev DF := List Row

/-- Close column of the DataFrame. -/
def closesOf (df : DF) : List ℚ := df.map Row.close

/-- Volume column of the DataFrame. -/
def volumesOf (df : DF) : List ℚ := df.map Row.volume

/-- `iloc[-1]` of a column (the guard `len(df) ≥ 121` in the screening
loop ensures the default `0` is never used there). -/
def lastD (xs : List ℚ) : ℚ := xs.getLast?.getD 0

/-- `series.rolling(window=w).mean()` (pandas, default `min_periods = window`):
a same-length sequence, position `i` is `NaN` until `w` observations exist at
or before `i`, and the mean of observations `i-w+1 .. i` from then on.
Embeds `df['Close'].rolling(window=20).mean()` etc.
(`src/app.py` lines 32-34). -/
def rollingMean (w : ℕ) (xs : List ℚ) : List (Option ℚ) :=
  (List.range xs.length).map fun i =>
    if w ≤ i + 1 then some ((((xs.take (i + 1)).drop (i + 1 - w)).sum) / (w : ℚ))
    else none

/-- `calculate_indicators` attaches `MA20/MA60/MA120`; the screening loop
reads them only at the latest row (`latest_data['MAw']`), i.e. the last
entry of the rolling-mean column. -/
def lastMA (w : ℕ) (closes : List ℚ) : Option ℚ :=
  ((rollingMean w closes).getLast?).getD none

/-- `src/app.py` lines 132-149 (criterion 3 computation): percent change of
the close over a lookback of `k` trading days, with the length guards at
lines 136 and 142 returning "excluded" (`none`), the reference price taken
at `iloc[-k-1]`, and the explicit `if start_price != 0 else 0` fallback at
line 146. -/
def price_change_pct (k : ℕ) (closes : List ℚ) : Option ℚ :=
  if closes.length < k + 1 then none
  else if closes.length < k + 1 then none
  else
    let start_price := (closes[closes.length - (k + 1)]?).getD 0
    let current_price := (closes[closes.length - 1]?).getD 0
    some (if start_price ≠ 0 then (current_price - start_price) / start_price * 100 else 0)

/-- `src/app.py` lines 151-166 (criterion 4 computation): percent change of
the mean volume of the most recent `k` periods (`iloc[-k:]`) relative to the
mean volume of the preceding `k` periods (`iloc[-2k:-k]`), guarded by
`len(df) < 2k + 1` at line 155, with the `if previous != 0 else 0` fallback
at line 163. -/
def volume_change_pct (k : ℕ) (volumes : List ℚ) : Option ℚ :=
  if volumes.length < 2 * k + 1 then none
  else
    let current_avg := ((volumes.drop (volumes.length - k)).sum) / (k : ℚ)
    let previous_avg := (((volumes.drop (volumes.length - 2 * k)).take k).sum) / (k : ℚ)
    some (if previous_avg ≠ 0 then (current_avg - previous_avg) / previous_avg * 100 else 0)

/-- `src/app.py` line 128: trailing 20-day mean volume converted to lots
(1 lot = 1000 shares). -/
def avg_volume (volumes : List ℚ) : ℚ :=
  (((volumes.drop (volumes.length - 20)).sum) / (20 : ℚ)) / 1000

/-- The sidebar screening configuration (`src/app.py` lines 58-79).
`price_period` is the trading-day count chosen from `period_days_map`
(20, 60, or 120); `volume_period` from (20 or 60); the fields are kept
general naturals/rationals since the screening code never restricts them. -/
structure Criteria where
  min_price : ℚ
  min_volume : ℚ
  price_period : ℕ
  price_change_threshold : ℚ
  volume_period : ℕ
  volume_change_threshold : ℚ
  ma20_check : Bool
  ma60_check : Bool
  ma120_check : Bool
deriving DecidableEq, Repr

/-- `src/app.py` line 111: `max(period_days_map.values()) + 1` where
`period_days_map = {"1個月": 20, "3個月": 60, "6個月": 120}` — a constant,
independent of the sidebar selections. -/
def max_required_days : ℕ := max 20 (max 60 120) + 1

/-- One `if ... : ma_conditions_met = False` arm of `src/app.py`
lines 171-176: an enabled MA requirement fails when the MA value is `NaN`
or the latest close is strictly below it (`pd.isna(ma) or close < ma`,
short-circuit: the comparison is only reached on a defined value). -/
def ma_fail (check : Bool) (close : ℚ) (ma : Option ℚ) : Bool :=
  check && (ma.isNone || decide (close < ma.getD 0))

/-- `src/app.py` lines 169-176: `ma_conditions_met` starts `True` and each
of the three independent `if` statements may set it `False`. -/
def ma_conditions_met (c : Criteria) (close : ℚ) (ma20 ma60 ma120 : Option ℚ) : Bool :=
  let met := true
  let met := if ma_fail c.ma20_check close ma20 then false else met
  let met := if ma_fail c.ma60_check close ma60 then false else met
  let met := if ma_fail c.ma120_check close ma120 then false else met
  met

/-- Outcome of one iteration of the screening loop: which `continue`
fired, or that the symbol reached `strong_stocks.append`. -/
inductive ScreenOutcome where
  | skippedNoData
  | skippedShort
  | failPrice
  | failVolume
  | failPriceChange
  | failVolumeChange
  | failMA
  | passed
deriving DecidableEq, Repr

/-- The body of the screening loop after a successful fetch
(`src/app.py` lines 110-191): the insufficient-history skip at lines
111-114 and then criteria 1-5 in order, each `continue` recorded as the
corresponding outcome. -/
def screenStock (c : Criteria) (df : DF) : ScreenOutcome :=
  if df.length < max_required_days then .skippedShort
  else
    let closes := closesOf df
    let volumes := volumesOf df
    let latest_close := lastD closes
    -- 1. minimum price
    if latest_close < c.min_price then .failPrice
    -- 2. minimum trailing-20 average volume (in lots)
    else if df.length < 20 then .failVolume
    else if avg_volume volumes < c.min_volume then .failVolume
    -- 3. price change over the selected period
    else match price_change_pct c.price_period closes with
    | none => .failPriceChange
    | some pct =>
      if pct < c.price_change_threshold then .failPriceChange
      -- 4. volume change over the selected period
      else match volume_change_pct c.volume_period volumes with
      | none => .failVolumeChange
      | some vpct =>
        if vpct < c.volume_change_threshold then .failVolumeChange
        -- 5. moving-average conditions
        else if ma_conditions_met c latest_close
            (lastMA 20 closes) (lastMA 60 closes) (lastMA 120 closes) then .passed
        else .failMA

/-- One full loop iteration (`src/app.py` lines 98-114): `get_stock_data`
returning `None` (fetch failure, modelled by the `Option`) or an empty
DataFrame skips the symbol; `calculate_indicators` only returns `None` on
`None`/empty input, already covered. -/
def screenFetched (c : Criteria) (fetched : Option DF) : ScreenOutcome :=
  match fetched with
  | none => .skippedNoData
  | some df => if df.isEmpty then .skippedNoData else screenStock c df

/-- The whole screening run (`src/app.py` lines 92-191): iterate the
symbol universe in input order, appending each passing symbol to
`strong_stocks`.  A universe entry pairs the symbol with what
`get_stock_data` produced for it (`none` = fetch failure). -/
def runScreen (c : Criteria) (univ : List (String × Option DF)) : List String :=
  univ.foldl
    (fun acc entry =>
      if screenFetched c entry.2 = .passed then acc ++ [entry.1] else acc) []

/-- Mean of a list of rationals (`sum / count`; Lean's `q / 0 = 0`
convention only fires on an empty list, which every use below guards). -/
def mean (xs : List ℚ) : ℚ := xs.sum / (xs.length : ℚ)

/-- The 0-based observation indices `0, 1, ..., n-1` as rationals: the
regression's x-values. -/
def idxs (n : ℕ) : List ℚ := (List.range n).map fun i => (i : ℚ)

/-- Modelled from the spec: the repository has no TrendClassifier source
under `src/` (spec §4.2 describes an intraday variant whose code is
missing), so the OLS slope is taken from the spec's contract: fit
`y = slope*x + b` over x = 0-based index by ordinary least squares,
`slope = Σ(x-x̄)(y-ȳ) / Σ(x-x̄)²`. -/
def olsSlope (ys : List ℚ) : ℚ :=
  let xs := idxs ys.length
  let xbar := mean xs
  let ybar := mean ys
  let sxy := ((xs.zip ys).map fun p => (p.1 - xbar) * (p.2 - ybar)).sum
  let sxx := (xs.map fun x => (x - xbar) ^ 2).sum
  sxy / sxx

/-- Modelled from the spec: residual sum of squares of the fitted line
`ŷ = slope*x + (ȳ - slope*x̄)` (spec §4.2). -/
def rssOf (ys : List ℚ) : ℚ :=
  let xs := idxs ys.length
  let slope := olsSlope ys
  let intercept := mean ys - slope * mean xs
  ((xs.zip ys).map fun p => (p.2 - (slope * p.1 + intercept)) ^ 2).sum

/-- Modelled from the spec: total sum of squares `Σ(y-ȳ)²` (spec §4.2). -/
def tssOf (ys : List ℚ) : ℚ :=
  (ys.map fun y => (y - mean ys) ^ 2).sum

/-- Modelled from the spec: `R² = 1 − RSS/TSS`, with `R² = 0` when the
total sum of squares is 0 (flat series) (spec §4.2). -/
def r2Of (ys : List ℚ) : ℚ :=
  if tssOf ys = 0 then 0 else 1 - rssOf ys / tssOf ys

/-- TrendResult directions (spec §3). -/
inductive TrendDirection where
  | Insufficient
  | Ranging
  | Up
  | Down
deriving DecidableEq, Repr

/-- TrendResult fields the classification decision involves (spec §3;
the preview tail is presentation-only and omitted). -/
structure TrendResult where
  direction : TrendDirection
  strength : ℚ
  r2 : ℚ
  lastPrice : ℚ
  windowMean : ℚ
deriving DecidableEq, Repr

/-- Modelled from the spec: the missing TrendClassifier (spec §4.2).
Takes the trailing `windowSize` closes of the series; if fewer than
`max(60, 0.6 * windowSize)` observations are available the direction is
`Insufficient` with best-effort 0 fields; otherwise
`strength = slope * windowSize / mean(y)` and the ordered rules
Up / Down / Ranging apply. -/
def classifyTrend (closes : List ℚ) (windowSize : ℕ)
    (strengthThreshold r2Threshold : ℚ) : TrendResult :=
  let ys := closes.drop (closes.length - windowSize)
  let lastClose := lastD ys
  let wmean := mean ys
  if (ys.length : ℚ) < max 60 ((6 : ℚ) / 10 * (windowSize : ℚ)) then
    ⟨.Insufficient, 0, 0, lastClose, wmean⟩
  else
    let strength := olsSlope ys * (windowSize : ℚ) / wmean
    let r2 := r2Of ys
    if strengthThreshold ≤ strength ∧ wmean < lastClose ∧ r2Threshold ≤ r2 then
      ⟨.Up, strength, r2, lastClose, wmean⟩
    else if strength ≤ -strengthThreshold ∧ lastClose < wmean ∧ r2Threshold ≤ r2 then
      ⟨.Down, strength, r2, lastClose, wmean⟩
    else
      ⟨.Ranging, strength, r2, lastClose, wmean⟩

/-! ### Spec-side predicates for the filter order (spec §4.3) -/

/-- Spec §4.3 criterion 1: `close ≥ minPrice`. -/
def passPrice (c : Criteria) (df : DF) : Bool :=
  decide (c.min_price ≤ lastD (closesOf df))

/-- Spec §4.3 criterion 2: trailing-20 average volume (in lots) at least
`minAvgVolume`, fail-closed on fewer than 20 rows. -/
def passVolume (c : Criteria) (df : DF) : Bool :=
  decide (20 ≤ df.length) && decide (c.min_volume ≤ avg_volume (volumesOf df))

/-- Spec §4.3 criterion 3: percent change over the configured window at
least the threshold, undefined ⇒ fail. -/
def passPriceChange (c : Criteria) (df : DF) : Bool :=
  match price_change_pct c.price_period (closesOf df) with
  | none => false
  | some p => decide (c.price_change_threshold ≤ p)

/-- Spec §4.3 criterion 4: volume change over the configured window at
least the threshold, undefined ⇒ fail. -/
def passVolumeChange (c : Criteria) (df : DF) : Bool :=
  match volume_change_pct c.volume_period (volumesOf df) with
  | none => false
  | some v => decide (c.volume_change_threshold ≤ v)

/-- Spec §4.3 criterion 5: the enabled moving-average conditions. -/
def passMA (c : Criteria) (df : DF) : Bool :=
  ma_conditions_met c (lastD (closesOf df)) (lastMA 20 (closesOf df))
    (lastMA 60 (closesOf df)) (lastMA 120 (closesOf df))

/-- Spec §4.3: evaluate the five criteria in the fixed order
price floor, volume floor, price change, volume change, MA conditions,
short-circuiting at — and reporting — the first failing criterion. -/
def firstFailing (c : Criteria) (df : DF) : ScreenOutcome :=
  if passPrice c df = false then .failPrice
  else if passVolume c df = false then .failVolume
  else if passPriceChange c df = false then .failPriceChange
  else if passVolumeChange c df = false then .failVolumeChange
  else if passMA c df = false then .failMA
  else .passed

/-- Spec-side definition, for comparison with the code's constant
`max_required_days`: the maximum window requirement among the *enabled*
criteria — `priceChangeWindow + 1` rows for the price change,
`2·volumeChangeWindow + 1` for the volume change, 20 for the
always-enabled trailing average volume, and `w` for each enabled
MA requirement (spec §4.4: "skip silently if the series is shorter than
the maximum window required by any enabled criterion"). -/
def enabledMaxRequired (c : Criteria) : ℕ :=
  max (max 20 (max (c.price_period + 1) (2 * c.volume_period + 1)))
    (max (if c.ma20_check then 20 else 0)
      (max (if c.ma60_check then 60 else 0) (if c.ma120_check then 120 else 0)))

/-! ### Theorems -/

/-- C1: for every series with at least `k+1` observations and a non-zero
reference close `k` periods back, the percent-change indicator equals
`(close[last] - close[last-k]) / close[last-k] * 100` exactly; when the
reference close is exactly 0 the result is 0; and for every series with
fewer than `k+1` observations the instrument is excluded (`none`),
never compared numerically. -/
theorem price_change_pct_spec (k : ℕ) (closes : List ℚ) :
    (closes.length < k + 1 → price_change_pct k closes = none) ∧
    ∀ (hne : closes ≠ []) (href : closes.length - (k + 1) < closes.length),
      k + 1 ≤ closes.length →
        (closes.get ⟨closes.length - (k + 1), href⟩ ≠ 0 →
          price_change_pct k closes = some
            ((closes.getLast hne - closes.get ⟨closes.length - (k + 1), href⟩) /
              closes.get ⟨closes.length - (k + 1), href⟩ * 100)) ∧
        (closes.get ⟨closes.length - (k + 1), href⟩ = 0 →
          price_change_pct k closes = some 0) := by
  constructor
  · intro hshort
    simp [price_change_pct, hshort]
  · intro hne href hlen
    have hlast : closes.length - 1 < closes.length := by
      have := List.length_pos.mpr hne
      omega
    have hcur : (closes[closes.length - 1]?).getD 0 = closes.getLast hne := by
      rw [List.getElem?_eq_getElem hlast, List.getLast_eq_getElem]
      rfl
    have hstart : (closes[closes.length - (k + 1)]?).getD 0 =
        closes.get ⟨closes.length - (k + 1), href⟩ := by
      rw [List.getElem?_eq_getElem href]
      rfl
    constructor
    · intro h0
      simp only [price_change_pct, if_neg (by omega : ¬closes.length < k + 1)]
      rw [hcur, hstart, if_pos h0]
    · intro h0
      have h0' : closes[closes.length - (k + 1)] = 0 := h0
      simp only [price_change_pct, if_neg (by omega : ¬closes.length < k + 1)]
      rw [hstart, if_neg (by simp [List.get_eq_getElem, h0'])]

/-- C1 witness: a concrete series realising both the non-zero-reference
formula and the short-series exclusion. -/
theorem price_change_pct_spec_witness :
    (¬([(2 : ℚ), 3].length < 1 + 1) ∧
      price_change_pct 1 [(2 : ℚ), 3] =
        some ((([(2 : ℚ), 3].getLast (by simp)) -
          [(2 : ℚ), 3].get ⟨[(2 : ℚ), 3].length - (1 + 1), by simp⟩) /
          [(2 : ℚ), 3].get ⟨[(2 : ℚ), 3].length - (1 + 1), by simp⟩ * 100)) ∧
    ([(5 : ℚ)].length < 1 + 1 ∧ price_change_pct 1 [(5 : ℚ)] = none) := by
  refine ⟨⟨by simp, ?_⟩, by simp, ?_⟩
  · exact ((price_change_pct_spec 1 [(2 : ℚ), 3]).2 (by simp) (by simp) (by simp)).1
      (by norm_num)
  · exact (price_change_pct_spec 1 [(5 : ℚ)]).1 (by simp)

/-- C3: the volume-change indicator equals the percent change of the mean
volume of the most recent `k` periods relative to the mean volume of the
adjacent preceding `k`-period window, is 0 when the preceding mean volume
is exactly 0, and requires at least `2k+1` observations, the instrument
being excluded (`none`) otherwise.  The two windows are stated as the
adjacent slices of the series: the last `k` elements and the `k` elements
just before them. -/
theorem volume_change_pct_spec (k : ℕ) (hk : 0 < k) (volumes : List ℚ) :
    (volumes.length < 2 * k + 1 → volume_change_pct k volumes = none) ∧
    (2 * k + 1 ≤ volumes.length →
      (mean ((volumes.take (volumes.length - k)).drop (volumes.length - 2 * k)) ≠ 0 →
        volume_change_pct k volumes = some
          ((mean (volumes.drop (volumes.length - k)) -
            mean ((volumes.take (volumes.length - k)).drop (volumes.length - 2 * k))) /
            mean ((volumes.take (volumes.length - k)).drop (volumes.length - 2 * k)) * 100)) ∧
      (mean ((volumes.take (volumes.length - k)).drop (volumes.length - 2 * k)) = 0 →
        volume_change_pct k volumes = some 0)) := by
  constructor
  · intro hshort
    simp [volume_change_pct, hshort]
  · intro hlen
    have hprevslice : (volumes.take (volumes.length - k)).drop (volumes.length - 2 * k) =
        (volumes.drop (volumes.length - 2 * k)).take k := by
      rw [List.drop_take]
      congr 1
      omega
    have hreclen : (volumes.drop (volumes.length - k)).length = k := by
      rw [List.length_drop]
      omega
    have hprevlen : ((volumes.drop (volumes.length - 2 * k)).take k).length = k := by
      rw [List.length_take, List.length_drop]
      omega
    have hrec : mean (volumes.drop (volumes.length - k)) =
        ((volumes.drop (volumes.length - k)).sum) / (k : ℚ) := by
      rw [mean, hreclen]
    have hprev : mean ((volumes.take (volumes.length - k)).drop (volumes.length - 2 * k)) =
        (((volumes.drop (volumes.length - 2 * k)).take k).sum) / (k : ℚ) := by
      rw [hprevslice, mean, hprevlen]
    constructor
    · intro h0
      rw [hprev] at h0
      simp only [volume_change_pct, if_neg (by omega : ¬volumes.length < 2 * k + 1)]
      rw [if_pos h0, hrec, hprev]
    · intro h0
      rw [hprev] at h0
      simp only [volume_change_pct, if_neg (by omega : ¬volumes.length < 2 * k + 1)]
      rw [if_neg (by simp [h0])]

/-- C3 witness: a concrete series realising the non-zero-reference
formula and the short-series exclusion. -/
theorem volume_change_pct_spec_witness :
    (0 < 1 ∧ 2 * 1 + 1 ≤ [(9 : ℚ), 2, 4].length ∧
      mean (([(9 : ℚ), 2, 4].take 2).drop 1) ≠ 0 ∧
      volume_change_pct 1 [(9 : ℚ), 2, 4] = some
        ((mean ([(9 : ℚ), 2, 4].drop 2) - mean (([(9 : ℚ), 2, 4].take 2).drop 1)) /
          mean (([(9 : ℚ), 2, 4].take 2).drop 1) * 100)) ∧
    ([(9 : ℚ), 2].length < 2 * 1 + 1 ∧ volume_change_pct 1 [(9 : ℚ), 2] = none) := by
  have h0 : mean (([(9 : ℚ), 2, 4].take 2).drop 1) ≠ 0 := by
    simp [mean]
  refine ⟨⟨by norm_num, by simp, h0, ?_⟩, by simp, ?_⟩
  · exact ((volume_change_pct_spec 1 (by norm_num) [(9 : ℚ), 2, 4]).2 (by simp)).1 h0
  · exact (volume_change_pct_spec 1 (by norm_num) [(9 : ℚ), 2]).1 (by simp)

/-- The rolling-mean column has the same length as its input column. -/
theorem rollingMean_length (w : ℕ) (xs : List ℚ) :
    (rollingMean w xs).length = xs.length := by
  simp [rollingMean]

/-- C7: for every ordered series and window size, the rolling moving
average is a same-length sequence whose position `i` is defined if and
only if at least `window` observations exist at or before `i` (i.e.
`w ≤ i + 1`); in particular, for every nonempty series with fewer than
`window` observations the moving average at the final position is
undefined (`none`), never zero. -/
theorem rollingMean_spec (w : ℕ) (xs : List ℚ) :
    (rollingMean w xs).length = xs.length ∧
    (∀ (i : ℕ) (hi : i < (rollingMean w xs).length),
      (((rollingMean w xs).get ⟨i, hi⟩).isSome ↔ w ≤ i + 1)) ∧
    (xs ≠ [] → xs.length < w → lastMA w xs = none) := by
  refine ⟨rollingMean_length w xs, ?_, ?_⟩
  · intro i hi
    have hix : i < xs.length := by
      rw [← rollingMean_length w xs]
      exact hi
    have hget : (rollingMean w xs).get ⟨i, hi⟩ =
        if w ≤ i + 1 then some ((((xs.take (i + 1)).drop (i + 1 - w)).sum) / (w : ℚ))
        else none := by
      simp [rollingMean, List.get_eq_getElem]
    rw [hget]
    by_cases hw : w ≤ i + 1
    · simp [hw]
    · simp [hw]
  · intro hne hshort
    have hlen : 0 < xs.length := List.length_pos.mpr hne
    have hlen2 : 0 < (rollingMean w xs).length := by
      rw [rollingMean_length]
      exact hlen
    have hmm : (rollingMean w xs) ≠ [] := List.length_pos.mp hlen2
    rw [lastMA, List.getLast?_eq_getLast_of_ne_nil hmm, Option.getD_some,
      List.getLast_eq_getElem]
    have hidx : (rollingMean w xs).length - 1 < (rollingMean w xs).length := by omega
    have hgetlast : (rollingMean w xs)[(rollingMean w xs).length - 1] =
        (rollingMean w xs).get ⟨(rollingMean w xs).length - 1, hidx⟩ := rfl
    rw [hgetlast]
    have hget : (rollingMean w xs).get ⟨(rollingMean w xs).length - 1, hidx⟩ =
        if w ≤ ((rollingMean w xs).length - 1) + 1
        then some ((((xs.take (((rollingMean w xs).length - 1) + 1)).drop
          ((((rollingMean w xs).length - 1) + 1) - w)).sum) / (w : ℚ))
        else none := by
      simp [rollingMean, List.get_eq_getElem]
    rw [hget, if_neg]
    rw [rollingMean_length]
    omega

/-- C7 witness: window 20 on a 3-observation series — every position,
including the final one, is undefined. -/
theorem rollingMean_spec_witness :
    (rollingMean 20 [(1 : ℚ), 2, 3]).length = [(1 : ℚ), 2, 3].length ∧
    ([(1 : ℚ), 2, 3] ≠ [] ∧ [(1 : ℚ), 2, 3].length < 20 ∧
      lastMA 20 [(1 : ℚ), 2, 3] = none) := by
  refine ⟨(rollingMean_spec 20 [(1 : ℚ), 2, 3]).1, by simp, by simp, ?_⟩
  exact (rollingMean_spec 20 [(1 : ℚ), 2, 3]).2.2 (by simp) (by simp)

/-- C4: the MA criterion passes if and only if, for each enabled window,
the MA value at the latest row is defined and the latest close is at
least that MA.  An undefined MA for an enabled window rejects, and a
single failing enabled condition rejects regardless of the others
(conjunctive, not disjunctive). -/
theorem ma_conditions_met_spec (c : Criteria) (close : ℚ) (m20 m60 m120 : Option ℚ) :
    ma_conditions_met c close m20 m60 m120 = true ↔
      ((c.ma20_check = true → ∃ m, m20 = some m ∧ m ≤ close) ∧
       (c.ma60_check = true → ∃ m, m60 = some m ∧ m ≤ close) ∧
       (c.ma120_check = true → ∃ m, m120 = some m ∧ m ≤ close)) := by
  have harm : ∀ (b : Bool) (mo : Option ℚ),
      ma_fail b close mo = false ↔ (b = true → ∃ m, mo = some m ∧ m ≤ close) := by
    intro b mo
    cases b
    · simp [ma_fail]
    · cases mo
      · simp [ma_fail]
      · simp [ma_fail, not_lt]
  have hsplit : ma_conditions_met c close m20 m60 m120 = true ↔
      (ma_fail c.ma20_check close m20 = false ∧
       ma_fail c.ma60_check close m60 = false ∧
       ma_fail c.ma120_check close m120 = false) := by
    rw [ma_conditions_met]
    rcases h20 : ma_fail c.ma20_check close m20 <;>
      rcases h60 : ma_fail c.ma60_check close m60 <;>
        rcases h120 : ma_fail c.ma120_check close m120 <;> simp
  rw [hsplit, harm, harm, harm]

/-- C10: whenever the orchestrator's minimum-history guard is met (at
least 121 observations), the 20-, 60- and 120-period moving averages at
the latest row are all defined, and the MA criterion degenerates to the
pure numeric comparisons `close ≥ MA` for the enabled windows — the
undefined-MA rejection branches are unreachable. -/
theorem ma_defined_after_guard (c : Criteria) (df : DF) (h : 121 ≤ df.length) :
    ∃ m20 m60 m120 : ℚ,
      lastMA 20 (closesOf df) = some m20 ∧
      lastMA 60 (closesOf df) = some m60 ∧
      lastMA 120 (closesOf df) = some m120 ∧
      (ma_conditions_met c (lastD (closesOf df)) (lastMA 20 (closesOf df))
          (lastMA 60 (closesOf df)) (lastMA 120 (closesOf df)) = true ↔
        ((c.ma20_check = true → m20 ≤ lastD (closesOf df)) ∧
         (c.ma60_check = true → m60 ≤ lastD (closesOf df)) ∧
         (c.ma120_check = true → m120 ≤ lastD (closesOf df)))) := by
  have hclen : (closesOf df).length = df.length := by
    simp [closesOf]
  have hdef : ∀ w : ℕ, 0 < w → w ≤ df.length → ∃ m, lastMA w (closesOf df) = some m := by
    intro w hw hwle
    have hlen : 0 < (rollingMean w (closesOf df)).length := by
      rw [rollingMean_length, hclen]
      omega
    have hmm : (rollingMean w (closesOf df)) ≠ [] := List.length_pos.mp hlen
    have hidx : (rollingMean w (closesOf df)).length - 1 <
        (rollingMean w (closesOf df)).length := by omega
    refine ⟨(((closesOf df).take (((rollingMean w (closesOf df)).length - 1) + 1)).drop
      ((((rollingMean w (closesOf df)).length - 1) + 1) - w)).sum / (w : ℚ), ?_⟩
    rw [lastMA, List.getLast?_eq_getLast_of_ne_nil hmm, Option.getD_some,
      List.getLast_eq_getElem]
    have hgetlast : (rollingMean w (closesOf df))[(rollingMean w (closesOf df)).length - 1] =
        (rollingMean w (closesOf df)).get
          ⟨(rollingMean w (closesOf df)).length - 1, hidx⟩ := rfl
    rw [hgetlast]
    have hcond : w ≤ ((rollingMean w (closesOf df)).length - 1) + 1 := by
      rw [rollingMean_length, hclen]
      omega
    simp [rollingMean, List.get_eq_getElem, hcond]
    rw [hclen]
    omega
  obtain ⟨m20, h20⟩ := hdef 20 (by norm_num) (by omega)
  obtain ⟨m60, h60⟩ := hdef 60 (by norm_num) (by omega)
  obtain ⟨m120, h120⟩ := hdef 120 (by norm_num) (by omega)
  refine ⟨m20, m60, m120, h20, h60, h120, ?_⟩
  rw [ma_conditions_met_spec, h20, h60, h120]
  constructor
  · intro hall
    refine ⟨fun hb => ?_, fun hb => ?_, fun hb => ?_⟩
    · obtain ⟨m, hm, hle⟩ := hall.1 hb
      rw [Option.some_inj] at hm
      rw [hm]
      exact hle
    · obtain ⟨m, hm, hle⟩ := hall.2.1 hb
      rw [Option.some_inj] at hm
      rw [hm]
      exact hle
    · obtain ⟨m, hm, hle⟩ := hall.2.2 hb
      rw [Option.some_inj] at hm
      rw [hm]
      exact hle
  · intro hall
    exact ⟨fun hb => ⟨m20, rfl, hall.1 hb⟩, fun hb => ⟨m60, rfl, hall.2.1 hb⟩,
      fun hb => ⟨m120, rfl, hall.2.2 hb⟩⟩

/-- Shared helper: past the history guard, the screening loop body equals
the ordered first-failing-criterion evaluation. -/
theorem screenStock_chain (c : Criteria) (df : DF) (h : 121 ≤ df.length) :
    screenStock c df = firstFailing c df := by
  have hguard : ¬ df.length < max_required_days := by
    simp only [max_required_days]
    omega
  have h20 : ¬ df.length < 20 := by omega
  rcases hp : price_change_pct c.price_period (closesOf df) with _ | p <;>
    rcases hv : volume_change_pct c.volume_period (volumesOf df) with _ | v <;>
      simp only [screenStock, firstFailing, passPrice, passVolume, passPriceChange,
        passVolumeChange, passMA, hp, hv, if_neg hguard, if_neg h20] <;>
      split_ifs <;> simp_all

/-- C5: for every instrument whose series passes the history guard, the
screening loop evaluates its criteria in the fixed order (1) price floor,
(2) trailing-20 average volume floor, (3) price percent-change threshold,
(4) volume-change threshold, (5) enabled MA conditions, short-circuiting
at the first failing criterion; the loop's outcome is exactly the first
failing criterion (or a pass), so the failing criterion is identifiable. -/
theorem screenStock_eq_firstFailing (c : Criteria) (df : DF) (h : 121 ≤ df.length) :
    screenStock c df = firstFailing c df :=
  screenStock_chain c df h

/-- C2 counterexample: with the 1-month price and volume periods selected
and only the 20-day MA enabled, every enabled criterion is satisfiable on
a 100-row series (the enabled maximum requirement is 41 rows), yet the
loop still skips it — the skip threshold is the fixed constant 121, not a
function of the enabled criteria. -/
theorem screen_skip_counterexample :
    enabledMaxRequired ⟨0, 0, 20, 0, 20, 0, true, false, false⟩ ≤
      (List.replicate 100 (⟨1, 1⟩ : Row)).length ∧
    screenStock ⟨0, 0, 20, 0, 20, 0, true, false, false⟩ (List.replicate 100 ⟨1, 1⟩) =
      ScreenOutcome.skippedShort := by
  constructor
  · simp [enabledMaxRequired]
  · simp [screenStock, max_required_days]

/-- C2 (amended): the loop skips an instrument at the history guard if
and only if its series is shorter than the fixed constant
`max(20, 60, 120) + 1 = 121` rows — for every criteria configuration,
enabled or not; consequently (with the sidebar's actual period options) a
series shorter than the enabled criteria's own maximum requirement is
always skipped, but meeting that requirement does not prevent the skip. -/
theorem screen_skip_iff (c : Criteria) (df : DF) :
    (screenStock c df = ScreenOutcome.skippedShort ↔ df.length < 121) ∧
    ((c.price_period = 20 ∨ c.price_period = 60 ∨ c.price_period = 120) →
      (c.volume_period = 20 ∨ c.volume_period = 60) →
      df.length < enabledMaxRequired c →
      screenStock c df = ScreenOutcome.skippedShort) := by
  have hiff : screenStock c df = ScreenOutcome.skippedShort ↔ df.length < 121 := by
    constructor
    · intro hskip
      by_contra hlen
      have hguard : ¬ df.length < max_required_days := by
        simp only [max_required_days]
        omega
      rw [screenStock_chain c df (by omega)] at hskip
      rw [firstFailing] at hskip
      split_ifs at hskip
    · intro hlen
      simp only [screenStock, max_required_days]
      rw [if_pos (by omega)]
  refine ⟨hiff, ?_⟩
  intro hpp hvp hlen
  have hbound : enabledMaxRequired c ≤ 121 := by
    rcases hpp with h1 | h1 | h1 <;> rcases hvp with h2 | h2 <;>
      simp only [enabledMaxRequired, h1, h2] <;> split_ifs <;> simp
  exact hiff.mpr (by omega)

/-- C2 amended-theorem witness: with the 1-month periods and only MA20
enabled, a 30-row series is below the enabled requirement (41 rows) and
is indeed skipped. -/
theorem screen_skip_iff_witness :
    ((20 : ℕ) = 20 ∨ (20 : ℕ) = 60 ∨ (20 : ℕ) = 120) ∧
    ((20 : ℕ) = 20 ∨ (20 : ℕ) = 60) ∧
    (List.replicate 30 (⟨1, 1⟩ : Row)).length <
      enabledMaxRequired ⟨0, 0, 20, 0, 20, 0, true, false, false⟩ ∧
    screenStock ⟨0, 0, 20, 0, 20, 0, true, false, false⟩ (List.replicate 30 ⟨1, 1⟩) =
      ScreenOutcome.skippedShort := by
  refine ⟨Or.inl rfl, Or.inl rfl, by simp [enabledMaxRequired], ?_⟩
  exact (screen_skip_iff ⟨0, 0, 20, 0, 20, 0, true, false, false⟩
    (List.replicate 30 ⟨1, 1⟩)).2 (Or.inl rfl) (Or.inl rfl)
    (by simp [enabledMaxRequired])

/-- C5 witness: a concrete 121-row DataFrame satisfying the guard. -/
theorem screenStock_eq_firstFailing_witness :
    121 ≤ (List.replicate 121 (⟨10, 5000⟩ : Row)).length ∧
    screenStock ⟨1, 1, 20, 0, 20, 0, true, false, false⟩ (List.replicate 121 ⟨10, 5000⟩) =
      firstFailing ⟨1, 1, 20, 0, 20, 0, true, false, false⟩ (List.replicate 121 ⟨10, 5000⟩) :=
  ⟨by simp, screenStock_eq_firstFailing ⟨1, 1, 20, 0, 20, 0, true, false, false⟩
    (List.replicate 121 ⟨10, 5000⟩) (by simp)⟩

/-- C10 witness: applying the guard theorem to a concrete 121-row
constant DataFrame yields defined moving averages at the last row. -/
theorem ma_defined_after_guard_witness :
    121 ≤ (List.replicate 121 (⟨1, 1⟩ : Row)).length ∧
    ∃ m20 m60 m120 : ℚ,
      lastMA 20 (closesOf (List.replicate 121 ⟨1, 1⟩)) = some m20 ∧
      lastMA 60 (closesOf (List.replicate 121 ⟨1, 1⟩)) = some m60 ∧
      lastMA 120 (closesOf (List.replicate 121 ⟨1, 1⟩)) = some m120 ∧
      (ma_conditions_met ⟨0, 0, 20, 0, 20, 0, true, true, true⟩
          (lastD (closesOf (List.replicate 121 ⟨1, 1⟩)))
          (lastMA 20 (closesOf (List.replicate 121 ⟨1, 1⟩)))
          (lastMA 60 (closesOf (List.replicate 121 ⟨1, 1⟩)))
          (lastMA 120 (closesOf (List.replicate 121 ⟨1, 1⟩))) = true ↔
        ((true = true → m20 ≤ lastD (closesOf (List.replicate 121 ⟨1, 1⟩))) ∧
         (true = true → m60 ≤ lastD (closesOf (List.replicate 121 ⟨1, 1⟩))) ∧
         (true = true → m120 ≤ lastD (closesOf (List.replicate 121 ⟨1, 1⟩))))) := by
  exact ⟨by simp,
    ma_defined_after_guard ⟨0, 0, 20, 0, 20, 0, true, true, true⟩
      (List.replicate 121 ⟨1, 1⟩) (by simp)⟩

/-- Shared helper: the screening fold with an arbitrary accumulator. -/
theorem runScreen_foldl (c : Criteria) (univ : List (String × Option DF))
    (acc : List String) :
    univ.foldl
      (fun a entry => if screenFetched c entry.2 = .passed then a ++ [entry.1] else a) acc =
    acc ++ ((univ.filter fun entry =>
      decide (screenFetched c entry.2 = ScreenOutcome.passed)).map Prod.fst) := by
  induction univ generalizing acc with
  | nil => simp
  | cons hd tl ih =>
    by_cases hpass : screenFetched c hd.2 = ScreenOutcome.passed
    · rw [List.foldl_cons, if_pos hpass, ih, List.filter_cons_of_pos (by simp [hpass])]
      simp
    · rw [List.foldl_cons, if_neg hpass, ih, List.filter_cons_of_neg (by simp [hpass])]

/-- C6: the result collection of a screening run is exactly the passing
instruments, in input iteration order (the run is a total function, so no
instrument ever aborts it); and an instrument whose fetch failed
(`none`) or whose fetched series is empty is merely dropped — removing it
from the universe leaves every other instrument's outcome unchanged. -/
theorem runScreen_spec (c : Criteria) (univ : List (String × Option DF)) :
    runScreen c univ = ((univ.filter fun entry =>
      decide (screenFetched c entry.2 = ScreenOutcome.passed)).map Prod.fst) ∧
    (∀ (pre post : List (String × Option DF)) (s : String),
      runScreen c (pre ++ [(s, none)] ++ post) = runScreen c (pre ++ post)) ∧
    (∀ (pre post : List (String × Option DF)) (s : String),
      runScreen c (pre ++ [(s, some [])] ++ post) = runScreen c (pre ++ post)) := by
  refine ⟨runScreen_foldl c univ [], ?_, ?_⟩
  · intro pre post s
    rw [runScreen, runScreen, runScreen_foldl, runScreen_foldl]
    simp [screenFetched]
  · intro pre post s
    rw [runScreen, runScreen, runScreen_foldl, runScreen_foldl]
    simp [screenFetched]

/-- C9 (round-trip): for every series whose volume is constant across the
two adjacent length-`k` windows, the volume-change indicator computed
from the two window mean volumes is exactly 0%, so the volume-change
criterion passes whenever its threshold is at most 0. -/
theorem volume_change_roundtrip (k : ℕ) (hk : 0 < k) (volumes : List ℚ) (v : ℚ)
    (hlen : 2 * k + 1 ≤ volumes.length)
    (hconst : ∀ x ∈ volumes.drop (volumes.length - 2 * k), x = v) :
    volume_change_pct k volumes = some 0 ∧
    ∀ t : ℚ, t ≤ 0 → ∃ p, volume_change_pct k volumes = some p ∧ t ≤ p := by
  have hrecsub : volumes.drop (volumes.length - k) =
      (volumes.drop (volumes.length - 2 * k)).drop k := by
    rw [List.drop_drop]
    congr 1
    omega
  have hrecmem : ∀ x ∈ volumes.drop (volumes.length - k), x = v := by
    intro x hx
    rw [hrecsub] at hx
    exact hconst x (List.mem_of_mem_drop hx)
  have hprevmem : ∀ x ∈ (volumes.drop (volumes.length - 2 * k)).take k, x = v := by
    intro x hx
    exact hconst x (List.mem_of_mem_take hx)
  have hreclen : (volumes.drop (volumes.length - k)).length = k := by
    rw [List.length_drop]
    omega
  have hprevlen : ((volumes.drop (volumes.length - 2 * k)).take k).length = k := by
    rw [List.length_take, List.length_drop]
    omega
  have hsum : ∀ l : List ℚ, (∀ x ∈ l, x = v) → l.sum = (l.length : ℚ) * v := by
    intro l hl
    induction l with
    | nil => simp
    | cons hd tl ih =>
      rw [List.sum_cons, hl hd (by simp), ih (fun x hx => hl x (by simp [hx]))]
      simp only [List.length_cons]
      push_cast
      ring
  have hrecsum : (volumes.drop (volumes.length - k)).sum = (k : ℚ) * v := by
    rw [hsum _ hrecmem, hreclen]
  have hprevsum : ((volumes.drop (volumes.length - 2 * k)).take k).sum = (k : ℚ) * v := by
    rw [hsum _ hprevmem, hprevlen]
  have hkq : (k : ℚ) ≠ 0 := by
    exact_mod_cast Nat.pos_iff_ne_zero.mp hk
  have havg : ((volumes.drop (volumes.length - k)).sum) / (k : ℚ) = v := by
    rw [hrecsum, mul_comm, mul_div_assoc, div_self hkq, mul_one]
  have havg2 : (((volumes.drop (volumes.length - 2 * k)).take k).sum) / (k : ℚ) = v := by
    rw [hprevsum, mul_comm, mul_div_assoc, div_self hkq, mul_one]
  have hzero : volume_change_pct k volumes = some 0 := by
    simp only [volume_change_pct, if_neg (by omega : ¬volumes.length < 2 * k + 1),
      havg, havg2]
    by_cases hv : v = 0
    · rw [if_neg (by simp [hv])]
    · rw [if_pos hv]
      simp
  exact ⟨hzero, fun t ht => ⟨0, hzero, ht⟩⟩

/-- C9 witness: constant volume 5 across the two adjacent windows of
length 1 yields exactly 0%, passing a 0 threshold. -/
theorem volume_change_roundtrip_witness :
    (0 < 1 ∧ 2 * 1 + 1 ≤ [(7 : ℚ), 5, 5].length ∧
      (∀ x ∈ [(7 : ℚ), 5, 5].drop ([(7 : ℚ), 5, 5].length - 2 * 1), x = 5)) ∧
    volume_change_pct 1 [(7 : ℚ), 5, 5] = some 0 := by
  have hconst : ∀ x ∈ [(7 : ℚ), 5, 5].drop ([(7 : ℚ), 5, 5].length - 2 * 1), x = 5 := by
    intro x hx
    simp_all
  exact ⟨⟨by norm_num, by simp, hconst⟩,
    (volume_change_roundtrip 1 (by norm_num) [(7 : ℚ), 5, 5] 5 (by simp) hconst).1⟩

/-- Mean of a constant list is the constant. -/
theorem mean_replicate (n : ℕ) (hn : 0 < n) (c : ℚ) :
    mean (List.replicate n c) = c := by
  rw [mean, List.sum_replicate, List.length_replicate, nsmul_eq_mul, mul_comm,
    mul_div_assoc, div_self, mul_one]
  exact_mod_cast Nat.pos_iff_ne_zero.mp hn

/-- The OLS slope over a constant series is 0. -/
theorem olsSlope_replicate (n : ℕ) (hn : 0 < n) (c : ℚ) :
    olsSlope (List.replicate n c) = 0 := by
  simp only [olsSlope, List.length_replicate, mean_replicate n hn c]
  have hz : (((idxs n).zip (List.replicate n c)).map
      fun p => (p.1 - mean (idxs n)) * (p.2 - c)).sum = 0 := by
    apply List.sum_eq_zero
    intro x hx
    obtain ⟨⟨a, b⟩, hp, rfl⟩ := List.mem_map.mp hx
    have hb : b = c := List.eq_of_mem_replicate (List.of_mem_zip hp).2
    simp [hb]
  rw [hz, zero_div]

/-- The residual sum of squares of the OLS fit over a constant series
is 0 (the fit is the constant itself). -/
theorem rssOf_replicate (n : ℕ) (hn : 0 < n) (c : ℚ) :
    rssOf (List.replicate n c) = 0 := by
  simp only [rssOf, List.length_replicate, olsSlope_replicate n hn c,
    mean_replicate n hn c]
  apply List.sum_eq_zero
  intro x hx
  obtain ⟨⟨a, b⟩, hp, rfl⟩ := List.mem_map.mp hx
  have hb : b = c := List.eq_of_mem_replicate (List.of_mem_zip hp).2
  simp [hb]

/-- The total sum of squares of a constant series is 0. -/
theorem tssOf_replicate (n : ℕ) (hn : 0 < n) (c : ℚ) :
    tssOf (List.replicate n c) = 0 := by
  simp only [tssOf, mean_replicate n hn c]
  apply List.sum_eq_zero
  intro x hx
  obtain ⟨b, hb, rfl⟩ := List.mem_map.mp hx
  rw [List.eq_of_mem_replicate hb]
  simp

/-- `R²` of a constant series is 0 by the zero-TSS fallback. -/
theorem r2Of_replicate (n : ℕ) (hn : 0 < n) (c : ℚ) :
    r2Of (List.replicate n c) = 0 := by
  rw [r2Of, if_pos (tssOf_replicate n hn c)]

/-- The last element of a nonempty constant list is the constant. -/
theorem lastD_replicate (n : ℕ) (hn : 0 < n) (c : ℚ) :
    lastD (List.replicate n c) = c := by
  rw [lastD, List.getLast?_replicate, if_neg (by omega)]
  rfl

/-- C8 (amended): for every constant close-price series whose available
trailing-window observation count (`min windowSize length`) is at least
`max(60, 0.6·windowSize)` — 180 observations for the default window of
300, not 60 — the trend classifier yields strength = 0, R² = 0 (by the
zero total-sum-of-squares fallback) and direction = Ranging. -/
theorem classifyTrend_const (n w : ℕ) (c sThr r2Thr : ℚ)
    (hobs : max 60 ((6 : ℚ) / 10 * (w : ℚ)) ≤ ((min w n : ℕ) : ℚ)) :
    classifyTrend (List.replicate n c) w sThr r2Thr =
      ⟨TrendDirection.Ranging, 0, 0, c, c⟩ := by
  have hysdrop : (List.replicate n c).drop (n - w) =
      List.replicate (n - (n - w)) c := List.drop_replicate c (n - w) n
  have hmeq : n - (n - w) = min w n := by omega
  have h60 : (60 : ℚ) ≤ ((min w n : ℕ) : ℚ) := le_trans (le_max_left _ _) hobs
  have hmpos : 0 < min w n := by
    by_contra h0
    push_neg at h0
    have hz : min w n = 0 := by omega
    rw [hz] at h60
    norm_num at h60
  simp only [classifyTrend, hysdrop, hmeq, List.length_replicate,
    olsSlope_replicate _ hmpos c, mean_replicate _ hmpos c,
    r2Of_replicate _ hmpos c, lastD_replicate _ hmpos c]
  rw [if_neg (not_lt.mpr hobs), zero_mul, zero_div,
    if_neg (fun h => lt_irrefl c h.2.1), if_neg (fun h => lt_irrefl c h.2.1)]

/-- C8 counterexample: a constant series of 60 observations with the
default 300-observation window is classified `Insufficient`, not
`Ranging`: rule 1 demands `max(60, 0.6·300) = 180` available
observations, so "at least 60 observations" is not enough. -/
theorem classifyTrend_const_counterexample :
    (classifyTrend (List.replicate 60 (100 : ℚ)) 300 (5 / 100) (3 / 10)).direction =
      TrendDirection.Insufficient := by
  simp [classifyTrend]
  norm_num

/-- C8 witness: a constant 300-observation series fills the default
300-observation window and is classified Ranging with zero strength
and zero R². -/
theorem classifyTrend_const_witness :
    max 60 ((6 : ℚ) / 10 * ((300 : ℕ) : ℚ)) ≤ ((min 300 300 : ℕ) : ℚ) ∧
    classifyTrend (List.replicate 300 (100 : ℚ)) 300 (5 / 100) (3 / 10) =
      ⟨TrendDirection.Ranging, 0, 0, 100, 100⟩ := by
  have h : max 60 ((6 : ℚ) / 10 * ((300 : ℕ) : ℚ)) ≤ ((min 300 300 : ℕ) : ℚ) := by
    norm_num
  exact ⟨h, classifyTrend_const 300 300 100 (5 / 100) (3 / 10) h⟩

end Screener
